import Mathlib

/-!
Formal model of the CDTV_PS2Mouse_Joy Arduino sketch (CDTV_PS2Mouse_Joy.ino)
and proofs about its specification claims.

Modelling conventions (shallow embedding of the C source):
* 8-bit variables (`uint8_t`) are `Nat` values kept below 256; wrap-around
  arithmetic is made explicit with `% 256`, and the C mask `& 0xF` is `&&& 0xF`.
* `millis()` values are passed in as absolute `Nat` milliseconds; the source
  truncates them by assigning to `uint8_t`, which the model mirrors with `% 256`.
* The C expression `curr - last > 5` on two `uint8_t` operands is computed, as
  in C, after integer promotion: both operands are promoted to `int`, so the
  subtraction is a signed mathematical subtraction of the two 8-bit values.
  The model therefore casts both to `Int` before subtracting.
* Interrupt handlers become pure state-transition functions; the hardware is
  modelled by feeding them the sampled pin level and the current time.
* The PS/2 receive ring buffer (`ps2_recv_buffer[16]`, `ps2_head`, `ps2_tail`)
  is a structure with two `Nat` indices and a 16-element `List Nat`.
-/

/-! ## PS/2 receive ring buffer (source lines 167-184, 203-208) -/

/-- State of the 16-entry receive ring buffer: `ps2_head`, `ps2_tail` and
`ps2_recv_buffer[16]` from the source. -/
structure Ps2Ring where
  head : Nat
  tail : Nat
  buf : List Nat
deriving DecidableEq

/-- Model of `ps2_available()`: `avail = ps2_tail - ps2_head` in `uint8_t`
arithmetic (wrap-around difference mod 256), then `avail & 0xF`. -/
def ps2_available (head tail : Nat) : Nat :=
  ((tail % 256 + 256 - head % 256) % 256) &&& 0xF

/-- Model of `ps2_get_data()`: if the buffer is non-empty, read
`ps2_recv_buffer[ps2_head]`, advance `ps2_head` by one modulo 16, and return
the byte; otherwise return 0 and leave everything unchanged. -/
def ps2_get_data (r : Ps2Ring) : Nat × Ps2Ring :=
  if r.tail ≠ r.head then
    (r.buf.getD r.head 0, { r with head := (r.head + 1) &&& 0xF })
  else
    (0, r)

/-- Model of the producer push in `ps2_recv_isr` (source lines 203-208): the
tentative tail `t_tail = (ps2_tail + 1) & 0xF` is compared against the head;
only if they differ is the byte stored and the tail advanced.  A full buffer
drops the new byte. -/
def ps2_push (r : Ps2Ring) (d : Nat) : Ps2Ring :=
  let t_tail := (r.tail + 1) &&& 0xF
  if t_tail ≠ r.head then
    { r with buf := r.buf.set r.tail d, tail := t_tail }
  else
    r

/-! ## PS/2 receive interrupt handler (source lines 186-213) -/

/-- One shift step of the receive accumulator: `data >>= 1;` followed by
`if (digitalRead(PS2DATAPIN) == HIGH) data |= 0x80;`. -/
def shiftBit (d : Nat) (pinHigh : Bool) : Nat :=
  (d >>> 1) ||| (if pinHigh then 0x80 else 0)

/-- Interrupt-local state of `ps2_recv_isr`: the static variables `bitcount`,
`data`, `last`, plus the shared ring buffer. -/
structure Ps2Recv where
  bitcount : Nat
  data : Nat
  last : Nat
  ring : Ps2Ring
deriving DecidableEq

/-- Model of `ps2_recv_isr()` for one falling clock edge.  `pinHigh` is the
sampled level of the PS/2 data pin, `millisNow` the absolute `millis()` value.
The source truncates `millis()` to `uint8_t` (`curr := millisNow % 256`), then
evaluates `curr - last > 5` after C integer promotion (signed subtraction of
the two promoted 8-bit values), resetting `bitcount` when it holds.  Then the
data bit is shifted in, `bitcount` is incremented (with `uint8_t` wrap), the
byte is pushed at `bitcount == 9`, and `bitcount` is cleared at 11. -/
def ps2_recv_isr (pinHigh : Bool) (millisNow : Nat) (s : Ps2Recv) : Ps2Recv :=
  let curr := millisNow % 256
  let bc0 := if ((curr : Int) - (s.last : Int) > 5) then 0 else s.bitcount
  let d := shiftBit s.data pinHigh
  let bc := (bc0 + 1) % 256
  if bc = 9 then
    ⟨bc, d, curr, ps2_push s.ring d⟩
  else if bc = 11 then
    ⟨0, d, curr, s.ring⟩
  else
    ⟨bc, d, curr, s.ring⟩

/-- Feed a sequence of falling clock edges (sampled data level, absolute
milliseconds) to the receive interrupt handler. -/
def ps2_feed (s : Ps2Recv) (edges : List (Bool × Nat)) : Ps2Recv :=
  edges.foldl (fun st e => ps2_recv_isr e.1 e.2 st) s

/-! ## Claims C3, C10, C4 -/

/-- Claim C3: `ps2_available` never reports more than 15 entries (capacity 16
minus one), and a producer push into a full ring buffer (incremented tail
equal to head) leaves the ring — tail index, buffer contents, and hence the
oldest stored entry — completely unchanged: the newest byte is discarded. -/
theorem claim_C3 :
    (∀ head tail : Nat, ps2_available head tail ≤ 15) ∧
    (∀ (r : Ps2Ring) (d : Nat), (r.tail + 1) &&& 0xF = r.head → ps2_push r d = r) := by
  constructor
  · intro head tail
    exact Nat.and_le_right
  · intro r d h
    simp [ps2_push, h]

/-- Claim C3 witness: a concrete full ring (head 0, tail 15) is unchanged by a
push, and a concrete available count is at most 15. -/
theorem claim_C3_witness :
    ps2_available 3 9 ≤ 15 ∧
    ps2_push ⟨0, 15, List.replicate 16 0⟩ 7 = ⟨0, 15, List.replicate 16 0⟩ :=
  ⟨claim_C3.1 3 9, claim_C3.2 ⟨0, 15, List.replicate 16 0⟩ 7 (by decide)⟩

/-- Claim C10: whenever the ring buffer is empty (`head = tail`),
`ps2_get_data` returns 0 and leaves the ring (head, tail and contents)
unchanged — indistinguishable, by return value alone, from receiving 0x00. -/
theorem claim_C10 (r : Ps2Ring) (h : r.head = r.tail) :
    ps2_get_data r = (0, r) := by
  simp [ps2_get_data, h]

/-- Claim C10 witness: the empty ring with head = tail = 2. -/
theorem claim_C10_witness :
    (⟨2, 2, List.replicate 16 0⟩ : Ps2Ring).head = (⟨2, 2, List.replicate 16 0⟩ : Ps2Ring).tail ∧
    ps2_get_data ⟨2, 2, List.replicate 16 0⟩ = (0, ⟨2, 2, List.replicate 16 0⟩) :=
  ⟨rfl, claim_C10 ⟨2, 2, List.replicate 16 0⟩ rfl⟩

/-- Claim C4 (code-bug exhibit): the claim says a gap of more than 5 ms always
forces the bit counter to zero before the shift, but the source compares the
8-bit-truncated timestamps with a signed (`int`-promoted) subtraction.  With
the previous edge at 250 ms (`last = 250`) and the next edge 10 ms later at
260 ms (`curr = 260 % 256 = 4`), the comparison computes `4 - 250 = -246 > 5`,
which is false, so `bitcount` is NOT reset: from `bitcount = 5` the handler
leaves it at `5 + 1 = 6`, whereas the claimed reset would yield `0 + 1 = 1`. -/
theorem claim_C4_bug :
    (ps2_recv_isr false 260 ⟨5, 0, 250, ⟨0, 0, List.replicate 16 0⟩⟩).bitcount = 6 := by
  decide

/-! ## Mouse state decoder `ps2_get_state` (source lines 260-287) -/

/-- CDTV remote code for mouse button A (source line 79). -/
def CDTV_CODE_MOUSE_A : Nat := 0x080

/-- CDTV remote code for mouse button B (source line 80). -/
def CDTV_CODE_MOUSE_B : Nat := 0x040

/-- CDTV remote code for mouse up (source line 81). -/
def CDTV_CODE_MOUSE_UP : Nat := 0x020

/-- CDTV remote code for mouse right (source line 82). -/
def CDTV_CODE_MOUSE_RIGHT : Nat := 0x004

/-- CDTV remote code for mouse down (source line 83). -/
def CDTV_CODE_MOUSE_DOWN : Nat := 0x010

/-- CDTV remote code for mouse left (source line 84). -/
def CDTV_CODE_MOUSE_LEFT : Nat := 0x008

/-- Reinterpretation of a received byte as C `int8_t` (the source assigns the
`uint8_t` returned by `ps2_get_data` to `int8_t ps2dx` / `int8_t ps2dy`). -/
def toInt8 (b : Nat) : Int :=
  if b % 256 < 128 then (b % 256 : Int) else (b % 256 : Int) - 256

/-- Direction/button mask computed by one aligned packet in `ps2_get_state`
(source lines 270-282): `ps2state = (ps2status & 0x3) << 6;` then bit 0x4 for
`ps2dx > 0`, 0x8 for `ps2dx < 0`, 0x20 for `ps2dy > 0`, 0x10 for `ps2dy < 0`. -/
def mouse_flags (status : Nat) (dx dy : Int) : Nat :=
  let st1 := (status &&& 0x3) <<< 6
  let st2 := if dx > 0 then st1 ||| 0x4 else if dx < 0 then st1 ||| 0x8 else st1
  if dy > 0 then st2 ||| 0x20 else if dy < 0 then st2 ||| 0x10 else st2

/-- Body of the `while (ps2_available() >= 3)` loop of `ps2_get_state`, with
explicit fuel.  Each iteration consumes at least one byte and
`ps2_available` is always at most 15 (`claim_C3`), so any fuel of at least 15
makes the model exact for the C loop; `ps2_get_state` below uses 16, and
`ps2_get_state_loop_fuel` proves the fuel is irrelevant from there on. -/
def ps2_get_state_loop : Nat → Nat → Ps2Ring → Nat × Ps2Ring
  | 0, st, r => (st, r)
  | fuel + 1, st, r =>
    if 3 ≤ ps2_available r.head r.tail then
      let status := (ps2_get_data r).1
      let r1 := (ps2_get_data r).2
      let dxb := (ps2_get_data r1).1
      let r2 := (ps2_get_data r1).2
      let dyb := (ps2_get_data r2).1
      let r3 := (ps2_get_data r2).2
      if status &&& 0xC = 0x8 then
        ps2_get_state_loop fuel (mouse_flags status (toInt8 dxb) (toInt8 dyb)) r3
      else
        ps2_get_state_loop fuel st r1
    else
      (st, r)

/-- Model of `ps2_get_state()`: the static `ps2state` decays to its button
bits (`ps2state & 0xC0`), then the loop drains complete packets. -/
def ps2_get_state (prev : Nat) (r : Ps2Ring) : Nat × Ps2Ring :=
  ps2_get_state_loop 16 (prev &&& 0xC0) r

/-! ## Arithmetic helpers for the ring indices -/

/-- Mask 0xF is mod 16. -/
lemma and_fifteen (x : Nat) : x &&& 0xF = x % 16 :=
  Nat.and_pow_two_sub_one_eq_mod x 4

/-- With in-range indices, `ps2_available` is the mod-16 distance. -/
lemma ps2_available_eq_mod (h t : Nat) (hh : h < 16) (ht : t < 16) :
    ps2_available h t = (t + 16 - h) % 16 := by
  have e : ((t % 256 + 256 - h % 256) % 256) &&& 0xF
      = ((t % 256 + 256 - h % 256) % 256) % 16 :=
    Nat.and_pow_two_sub_one_eq_mod _ 4
  unfold ps2_available
  rw [e]
  omega

/-- Available count is at most 15 in every state. -/
lemma ps2_available_le (h t : Nat) : ps2_available h t ≤ 15 :=
  Nat.and_le_right

/-- A nonempty ring has distinct tail and head. -/
lemma ps2_available_ne (h t : Nat) (hh : h < 16) (ht : t < 16)
    (hpos : 1 ≤ ps2_available h t) : t ≠ h := by
  rw [ps2_available_eq_mod h t hh ht] at hpos
  omega

/-- Consuming one byte decrements the available count. -/
lemma ps2_available_succ_head (h t : Nat) (hh : h < 16) (ht : t < 16) (hne : t ≠ h) :
    ps2_available ((h + 1) &&& 0xF) t = ps2_available h t - 1 := by
  rw [and_fifteen, ps2_available_eq_mod ((h + 1) % 16) t (Nat.mod_lt _ (by omega)) ht,
    ps2_available_eq_mod h t hh ht]
  omega

/-- On a nonempty ring, `ps2_get_data` advances the head. -/
lemma ps2_get_data_snd (r : Ps2Ring) (hne : r.tail ≠ r.head) :
    (ps2_get_data r).2 = { r with head := (r.head + 1) &&& 0xF } := by
  simp [ps2_get_data, hne]

/-- On a nonempty ring, `ps2_get_data` returns the byte at the head. -/
lemma ps2_get_data_fst (r : Ps2Ring) (hne : r.tail ≠ r.head) :
    (ps2_get_data r).1 = r.buf.getD r.head 0 := by
  simp [ps2_get_data, hne]

/-- Loop-unfolding: fewer than three bytes stops the loop. -/
lemma ps2_get_state_loop_stop (fuel st : Nat) (r : Ps2Ring)
    (h : ¬ 3 ≤ ps2_available r.head r.tail) :
    ps2_get_state_loop (fuel + 1) st r = (st, r) := by
  rw [ps2_get_state_loop]
  simp [h]

/-- Loop-unfolding: a misaligned first byte is consumed and skipped. -/
lemma ps2_get_state_loop_mis (fuel st : Nat) (r : Ps2Ring)
    (h3 : 3 ≤ ps2_available r.head r.tail)
    (hmis : ¬ (ps2_get_data r).1 &&& 0xC = 0x8) :
    ps2_get_state_loop (fuel + 1) st r = ps2_get_state_loop fuel st (ps2_get_data r).2 := by
  rw [ps2_get_state_loop]
  simp [h3, hmis]

/-- Loop-unfolding: an aligned packet consumes three bytes and recomputes the
state mask. -/
lemma ps2_get_state_loop_aligned (fuel st : Nat) (r : Ps2Ring)
    (h3 : 3 ≤ ps2_available r.head r.tail)
    (hal : (ps2_get_data r).1 &&& 0xC = 0x8) :
    ps2_get_state_loop (fuel + 1) st r =
      ps2_get_state_loop fuel
        (mouse_flags (ps2_get_data r).1
          (toInt8 (ps2_get_data (ps2_get_data r).2).1)
          (toInt8 (ps2_get_data (ps2_get_data (ps2_get_data r).2).2).1))
        (ps2_get_data (ps2_get_data (ps2_get_data r).2).2).2 := by
  rw [ps2_get_state_loop]
  simp [h3, hal]

/-- Any fuel at least the available byte count is equivalent: the loop always
terminates by draining the buffer, never by fuel exhaustion. -/
lemma ps2_get_state_loop_fuel (fuel : Nat) : ∀ (st : Nat) (r : Ps2Ring),
    r.head < 16 → r.tail < 16 → ps2_available r.head r.tail ≤ fuel →
    ps2_get_state_loop (fuel + 1) st r = ps2_get_state_loop fuel st r := by
  induction fuel with
  | zero =>
    intro st r hh ht ha
    rw [ps2_get_state_loop_stop 0 st r (by omega)]
    rfl
  | succ f ih =>
    intro st r hh ht ha
    by_cases h3 : 3 ≤ ps2_available r.head r.tail
    · have hne1 : r.tail ≠ r.head := ps2_available_ne _ _ hh ht (by omega)
      have hr1 := ps2_get_data_snd r hne1
      have hh1 : ((r.head + 1) &&& 0xF) < 16 := by
        have := Nat.and_le_right (n := r.head + 1) (m := 0xF)
        omega
      have ha1 : ps2_available ((r.head + 1) &&& 0xF) r.tail
          = ps2_available r.head r.tail - 1 :=
        ps2_available_succ_head _ _ hh ht hne1
      by_cases hal : (ps2_get_data r).1 &&& 0xC = 0x8
      · rw [ps2_get_state_loop_aligned (f + 1) st r h3 hal,
          ps2_get_state_loop_aligned f st r h3 hal]
        have hne2 : r.tail ≠ ((r.head + 1) &&& 0xF) := by
          apply ps2_available_ne _ _ hh1 ht
          omega
        have hr2 : (ps2_get_data (ps2_get_data r).2).2
            = { r with head := (((r.head + 1) &&& 0xF) + 1) &&& 0xF } := by
          rw [hr1, ps2_get_data_snd _ hne2]
        have hh2 : ((((r.head + 1) &&& 0xF) + 1) &&& 0xF) < 16 := by
          have := Nat.and_le_right (n := ((r.head + 1) &&& 0xF) + 1) (m := 0xF)
          omega
        have ha2 : ps2_available ((((r.head + 1) &&& 0xF) + 1) &&& 0xF) r.tail
            = ps2_available r.head r.tail - 2 := by
          rw [ps2_available_succ_head _ _ hh1 ht hne2, ha1]
          omega
        have hne3 : r.tail ≠ ((((r.head + 1) &&& 0xF) + 1) &&& 0xF) := by
          apply ps2_available_ne _ _ hh2 ht
          omega
        have hr3 : (ps2_get_data (ps2_get_data (ps2_get_data r).2).2).2
            = { r with head := (((((r.head + 1) &&& 0xF) + 1) &&& 0xF) + 1) &&& 0xF } := by
          rw [hr2]
          rw [ps2_get_data_snd { r with head := (((r.head + 1) &&& 0xF) + 1) &&& 0xF } hne3]
        have hh3 : ((((((r.head + 1) &&& 0xF) + 1) &&& 0xF) + 1) &&& 0xF) < 16 := by
          have := Nat.and_le_right (n := ((((r.head + 1) &&& 0xF) + 1) &&& 0xF) + 1) (m := 0xF)
          omega
        have ha3 : ps2_available (((((((r.head + 1) &&& 0xF) + 1) &&& 0xF)) + 1) &&& 0xF) r.tail
            = ps2_available r.head r.tail - 3 := by
          rw [ps2_available_succ_head _ _ hh2 ht hne3, ha2]
          omega
        rw [hr3]
        exact ih _ _ hh3 ht (by rw [ha3]; omega)
      · rw [ps2_get_state_loop_mis (f + 1) st r h3 hal,
          ps2_get_state_loop_mis f st r h3 hal, hr1]
        exact ih _ _ hh1 ht (by rw [ha1]; omega)
    · rw [ps2_get_state_loop_stop (f + 1) st r h3, ps2_get_state_loop_stop f st r h3]

/-! ## Claims C8 and C5 -/

/-- Claim C8: when `ps2_get_state` meets a first byte whose alignment bits
(bits 2-3) are not the expected pattern `0x8`, that byte is consumed (the head
advances past it — the buffer never stalls) and it contributes nothing to the
returned state: the result is exactly the result of running `ps2_get_state` on
the ring with the misaligned byte already skipped. -/
theorem claim_C8 (prev : Nat) (r : Ps2Ring) (hh : r.head < 16) (ht : r.tail < 16)
    (h3 : 3 ≤ ps2_available r.head r.tail)
    (hmis : ¬ (r.buf.getD r.head 0) &&& 0xC = 0x8) :
    ps2_get_state prev r = ps2_get_state prev { r with head := (r.head + 1) &&& 0xF } := by
  have hne : r.tail ≠ r.head := ps2_available_ne _ _ hh ht (by omega)
  have hf := ps2_get_data_fst r hne
  have hs := ps2_get_data_snd r hne
  have h16 : (16 : Nat) = 15 + 1 := rfl
  unfold ps2_get_state
  rw [h16, ps2_get_state_loop_mis 15 (prev &&& 0xC0) r h3 (by rw [hf]; exact hmis), hs]
  refine (ps2_get_state_loop_fuel 15 (prev &&& 0xC0) _ ?_ ?_ ?_).symm
  · show ((r.head + 1) &&& 0xF) < 16
    have := Nat.and_le_right (n := r.head + 1) (m := 0xF)
    omega
  · exact ht
  · exact ps2_available_le _ _

/-- Claim C8 witness: a concrete ring holding a misaligned byte 0x00 followed
by two more bytes. -/
theorem claim_C8_witness :
    ((⟨0, 3, [0x00, 0x08, 0x05] ++ List.replicate 13 0⟩ : Ps2Ring).head < 16 ∧
     (⟨0, 3, [0x00, 0x08, 0x05] ++ List.replicate 13 0⟩ : Ps2Ring).tail < 16 ∧
     3 ≤ ps2_available 0 3 ∧
     ¬ (([0x00, 0x08, 0x05] ++ List.replicate 13 0).getD 0 0) &&& 0xC = 0x8) ∧
    ps2_get_state 0 ⟨0, 3, [0x00, 0x08, 0x05] ++ List.replicate 13 0⟩ =
      ps2_get_state 0 ⟨(0 + 1) &&& 0xF, 3, [0x00, 0x08, 0x05] ++ List.replicate 13 0⟩ :=
  ⟨⟨by decide, by decide, by decide, by decide⟩,
    claim_C8 0 ⟨0, 3, [0x00, 0x08, 0x05] ++ List.replicate 13 0⟩
      (by decide) (by decide) (by decide) (by decide)⟩

/-- Claim C5 counterexample: for the three-byte packet status = 0x08
(alignment bits 2-3 equal to the expected pattern, button bits 0), dx = +5,
dy = -3 (byte 0xFD), the decoded state is 0x14 = RIGHT ||| DOWN.  The claim
asserts the UP flag (0x20) is set; it is not — the source maps `ps2dy < 0` to
the DOWN code 0x10 (source line 281), so the claim is false at this input. -/
theorem claim_C5_counterexample :
    ¬ ((ps2_get_state 0 ⟨0, 3, [0x08, 0x05, 0xFD] ++ List.replicate 13 0⟩).1
          &&& CDTV_CODE_MOUSE_UP ≠ 0 ∧
       (ps2_get_state 0 ⟨0, 3, [0x08, 0x05, 0xFD] ++ List.replicate 13 0⟩).1
          &&& CDTV_CODE_MOUSE_RIGHT ≠ 0 ∧
       (ps2_get_state 0 ⟨0, 3, [0x08, 0x05, 0xFD] ++ List.replicate 13 0⟩).1
          &&& 0xC0 = 0) := by
  decide

/-- Claim C5 (amended): for a single three-byte packet whose status byte has
alignment bits (2-3) matching the expected pattern and button bits 0, with
dx = +5 and dy = -3 (byte 0xFD), `ps2_get_state` returns the RIGHT and DOWN
direction flags — not UP — and no button flags, for any prior static state. -/
theorem claim_C5_amended (prev status : Nat)
    (hal : status &&& 0xC = 0x8) (hbt : status &&& 0x3 = 0) :
    (ps2_get_state prev ⟨0, 3, [status, 0x05, 0xFD] ++ List.replicate 13 0⟩).1
        = CDTV_CODE_MOUSE_RIGHT ||| CDTV_CODE_MOUSE_DOWN ∧
    (ps2_get_state prev ⟨0, 3, [status, 0x05, 0xFD] ++ List.replicate 13 0⟩).1
        &&& CDTV_CODE_MOUSE_UP = 0 ∧
    (ps2_get_state prev ⟨0, 3, [status, 0x05, 0xFD] ++ List.replicate 13 0⟩).1
        &&& 0xC0 = 0 := by
  have e1 : (ps2_get_data ⟨0, 3, [status, 0x05, 0xFD] ++ List.replicate 13 0⟩).1
      = status := by
    simp [ps2_get_data]
  have e2 : (ps2_get_data ⟨0, 3, [status, 0x05, 0xFD] ++ List.replicate 13 0⟩).2
      = ⟨1, 3, [status, 0x05, 0xFD] ++ List.replicate 13 0⟩ := by
    simp [ps2_get_data]
  have e3 : (ps2_get_data ⟨1, 3, [status, 0x05, 0xFD] ++ List.replicate 13 0⟩).1
      = 0x05 := by
    simp [ps2_get_data]
  have e4 : (ps2_get_data ⟨1, 3, [status, 0x05, 0xFD] ++ List.replicate 13 0⟩).2
      = ⟨2, 3, [status, 0x05, 0xFD] ++ List.replicate 13 0⟩ := by
    simp [ps2_get_data]
    decide
  have e5 : (ps2_get_data ⟨2, 3, [status, 0x05, 0xFD] ++ List.replicate 13 0⟩).1
      = 0xFD := by
    simp [ps2_get_data]
  have e6 : (ps2_get_data ⟨2, 3, [status, 0x05, 0xFD] ++ List.replicate 13 0⟩).2
      = ⟨3, 3, [status, 0x05, 0xFD] ++ List.replicate 13 0⟩ := by
    simp [ps2_get_data]
    decide
  have e9 : mouse_flags status (toInt8 0x05) (toInt8 0xFD) = 0x14 := by
    simp only [mouse_flags]
    rw [hbt]
    decide
  have hres : (ps2_get_state prev ⟨0, 3, [status, 0x05, 0xFD] ++ List.replicate 13 0⟩).1
      = 0x14 := by
    unfold ps2_get_state
    rw [show (16 : Nat) = 15 + 1 from rfl,
      ps2_get_state_loop_aligned 15 (prev &&& 0xC0) _
        (by show (3 : Nat) ≤ ps2_available 0 3; decide) (by rw [e1]; exact hal),
      e1, e2, e3, e4, e5, e6, e9,
      show (15 : Nat) = 14 + 1 from rfl,
      ps2_get_state_loop_stop 14 0x14 _ (by show ¬ (3 : Nat) ≤ ps2_available 3 3; decide)]
  rw [hres]
  refine ⟨by decide, by decide, by decide⟩

/-- Claim C5 witness (for the amended claim): concrete status byte 0x08 and
prior state 0. -/
theorem claim_C5_witness :
    ((0x08 : Nat) &&& 0xC = 0x8 ∧ (0x08 : Nat) &&& 0x3 = 0) ∧
    ((ps2_get_state 0 ⟨0, 3, [0x08, 0x05, 0xFD] ++ List.replicate 13 0⟩).1
        = CDTV_CODE_MOUSE_RIGHT ||| CDTV_CODE_MOUSE_DOWN ∧
     (ps2_get_state 0 ⟨0, 3, [0x08, 0x05, 0xFD] ++ List.replicate 13 0⟩).1
        &&& CDTV_CODE_MOUSE_UP = 0 ∧
     (ps2_get_state 0 ⟨0, 3, [0x08, 0x05, 0xFD] ++ List.replicate 13 0⟩).1
        &&& 0xC0 = 0) :=
  ⟨⟨by decide, by decide⟩, claim_C5_amended 0 0x08 (by decide) (by decide)⟩

/-! ## Claim C1: one well-formed PS/2 frame delivers exactly its byte -/

/-- Odd-parity bit of a byte: set exactly when the byte has an even number of
one bits, so that the nine bits (data plus parity) always hold an odd count. -/
def odd_parity_bit (b : Nat) : Bool :=
  ((List.range 8).filter b.testBit).length % 2 == 0

/-- Falling-edge sequence of one well-formed PS/2 frame carrying byte `b`:
start bit low, the eight data bits LSB-first, the odd parity bit, and the
stop bit high, at the edge times `t 0`, ..., `t 10`. -/
def frame_edges (b : Nat) (t : Nat → Nat) : List (Bool × Nat) :=
  [(false, t 0),
   (b.testBit 0, t 1), (b.testBit 1, t 2), (b.testBit 2, t 3), (b.testBit 3, t 4),
   (b.testBit 4, t 5), (b.testBit 5, t 6), (b.testBit 6, t 7), (b.testBit 7, t 8),
   (odd_parity_bit b, t 9), (true, t 10)]

/-- Timestamps at most 5 ms apart never trigger the resync reset, whatever the
8-bit wrap-around does to the truncated values. -/
lemma no_reset_gap (a m : Nat) (h1 : a ≤ m) (h2 : m ≤ a + 5) :
    ¬ (((m % 256 : Nat) : Int) - ((a % 256 : Nat) : Int) > 5) := by
  omega

/-- One shift keeps the accumulator inside eight bits. -/
lemma shiftBit_lt (d : Nat) (p : Bool) (hd : d < 256) : shiftBit d p < 256 := by
  have e : (2 : Nat) ^ 8 = 256 := by norm_num
  have h1 : d >>> 1 < 2 ^ 8 := by
    rw [Nat.shiftRight_eq_div_pow, e]
    omega
  have h2 : (if p then 0x80 else 0 : Nat) < 2 ^ 8 := by
    cases p <;> norm_num
  have := Nat.or_lt_two_pow h1 h2
  rw [e] at this
  exact this

/-- Bit `i` of the accumulator after one shift: the old bit `i + 1`, with the
sampled bit entering at position 7. -/
lemma testBit_shiftBit (d : Nat) (p : Bool) (i : Nat) :
    (shiftBit d p).testBit i = (d.testBit (1 + i) || (p && decide (7 = i))) := by
  unfold shiftBit
  rw [Nat.testBit_or, Nat.testBit_shiftRight]
  congr 1
  cases p with
  | false => simp
  | true =>
    rw [if_pos rfl, show (0x80 : Nat) = 2 ^ 7 by norm_num, Nat.testBit_two_pow]
    simp

/-- Shifting in the start bit and then the eight data bits of `b` LSB-first
reconstructs exactly `b`, for any prior 8-bit accumulator content. -/
lemma shiftin_eq (d0 b : Nat) (hd : d0 < 256) (hb : b < 256) :

    shiftBit (shiftBit (shiftBit (shiftBit (shiftBit (shiftBit (shiftBit (shiftBit (shiftBit d0 false) (b.testBit 0)) (b.testBit 1)) (b.testBit 2)) (b.testBit 3)) (b.testBit 4)) (b.testBit 5)) (b.testBit 6)) (b.testBit 7) = b := by
  have hd8 : ∀ j, 8 ≤ j → d0.testBit j = false := by
    intro j hj
    apply Nat.testBit_lt_two_pow
    calc d0 < 256 := hd
      _ = 2 ^ 8 := by norm_num
      _ ≤ 2 ^ j := Nat.pow_le_pow_right (by norm_num) hj
  have hb8 : ∀ j, 8 ≤ j → b.testBit j = false := by
    intro j hj
    apply Nat.testBit_lt_two_pow
    calc b < 256 := hb
      _ = 2 ^ 8 := by norm_num
      _ ≤ 2 ^ j := Nat.pow_le_pow_right (by norm_num) hj
  apply Nat.eq_of_testBit_eq
  intro i
  rcases Nat.lt_or_ge i 8 with hi | hi
  · interval_cases i <;>
      simp [testBit_shiftBit, hd8, -Nat.testBit_zero]
  · have hfin : shiftBit (shiftBit (shiftBit (shiftBit (shiftBit (shiftBit (shiftBit (shiftBit (shiftBit d0 false) (b.testBit 0)) (b.testBit 1)) (b.testBit 2)) (b.testBit 3)) (b.testBit 4)) (b.testBit 5)) (b.testBit 6)) (b.testBit 7) < 256 := by
      iterate 9 apply shiftBit_lt
      exact hd
    have h1 := Nat.testBit_lt_two_pow
      (lt_of_lt_of_le hfin (by
        calc (256 : Nat) = 2 ^ 8 := by norm_num
          _ ≤ 2 ^ i := Nat.pow_le_pow_right (by norm_num) hi))
    rw [h1, hb8 i hi]


/-- Claim C1: feeding the receive handler the 11 falling edges of one
well-formed frame for byte `b` (start low, the 8 bits of `b` LSB-first, odd
parity, stop high), from a state with bit counter 0 and a non-full ring
buffer, with consecutive edges at most 5 ms apart, appends exactly one ring
entry equal to `b` — already after the 9th edge — leaves the head untouched,
and leaves the bit counter at 0 after the 11th edge. -/
theorem claim_C1 (b : Nat) (hb : b < 256) (s : Ps2Recv) (hd : s.data < 256)
    (hbc : s.bitcount = 0)
    (hroom : (s.ring.tail + 1) &&& 0xF ≠ s.ring.head)
    (t : Nat → Nat)
    (hgap : ∀ i, i < 10 → t i ≤ t (i + 1) ∧ t (i + 1) ≤ t i + 5) :
    (ps2_feed s ((frame_edges b t).take 9)).ring =
      { s.ring with
          buf := s.ring.buf.set s.ring.tail b,
          tail := (s.ring.tail + 1) &&& 0xF } ∧
    (ps2_feed s (frame_edges b t)).ring =
      { s.ring with
          buf := s.ring.buf.set s.ring.tail b,
          tail := (s.ring.tail + 1) &&& 0xF } ∧
    (ps2_feed s (frame_edges b t)).bitcount = 0 := by
  have nr1 : ¬ (((t 1 % 256 : Nat) : Int) - ((t 0 % 256 : Nat) : Int) > 5) :=
    no_reset_gap (t 0) (t 1) (hgap 0 (by omega)).1 (hgap 0 (by omega)).2
  have nr2 : ¬ (((t 2 % 256 : Nat) : Int) - ((t 1 % 256 : Nat) : Int) > 5) :=
    no_reset_gap (t 1) (t 2) (hgap 1 (by omega)).1 (hgap 1 (by omega)).2
  have nr3 : ¬ (((t 3 % 256 : Nat) : Int) - ((t 2 % 256 : Nat) : Int) > 5) :=
    no_reset_gap (t 2) (t 3) (hgap 2 (by omega)).1 (hgap 2 (by omega)).2
  have nr4 : ¬ (((t 4 % 256 : Nat) : Int) - ((t 3 % 256 : Nat) : Int) > 5) :=
    no_reset_gap (t 3) (t 4) (hgap 3 (by omega)).1 (hgap 3 (by omega)).2
  have nr5 : ¬ (((t 5 % 256 : Nat) : Int) - ((t 4 % 256 : Nat) : Int) > 5) :=
    no_reset_gap (t 4) (t 5) (hgap 4 (by omega)).1 (hgap 4 (by omega)).2
  have nr6 : ¬ (((t 6 % 256 : Nat) : Int) - ((t 5 % 256 : Nat) : Int) > 5) :=
    no_reset_gap (t 5) (t 6) (hgap 5 (by omega)).1 (hgap 5 (by omega)).2
  have nr7 : ¬ (((t 7 % 256 : Nat) : Int) - ((t 6 % 256 : Nat) : Int) > 5) :=
    no_reset_gap (t 6) (t 7) (hgap 6 (by omega)).1 (hgap 6 (by omega)).2
  have nr8 : ¬ (((t 8 % 256 : Nat) : Int) - ((t 7 % 256 : Nat) : Int) > 5) :=
    no_reset_gap (t 7) (t 8) (hgap 7 (by omega)).1 (hgap 7 (by omega)).2
  have nr9 : ¬ (((t 9 % 256 : Nat) : Int) - ((t 8 % 256 : Nat) : Int) > 5) :=
    no_reset_gap (t 8) (t 9) (hgap 8 (by omega)).1 (hgap 8 (by omega)).2
  have nr10 : ¬ (((t 10 % 256 : Nat) : Int) - ((t 9 % 256 : Nat) : Int) > 5) :=
    no_reset_gap (t 9) (t 10) (hgap 9 (by omega)).1 (hgap 9 (by omega)).2
  have E1 : ps2_recv_isr false (t 0) s = ⟨1, shiftBit s.data false, t 0 % 256, s.ring⟩ := by
    simp [ps2_recv_isr, hbc]
  have E2 : ps2_recv_isr (b.testBit 0) (t 1)
      ⟨1, shiftBit s.data false, t 0 % 256, s.ring⟩
      = ⟨2, shiftBit (shiftBit s.data false) (b.testBit 0), t 1 % 256, s.ring⟩ := by
    simp only [ps2_recv_isr]
    rw [if_neg nr1]
    simp
  have E3 : ps2_recv_isr (b.testBit 1) (t 2)
      ⟨2, shiftBit (shiftBit s.data false) (b.testBit 0), t 1 % 256, s.ring⟩
      = ⟨3, shiftBit (shiftBit (shiftBit s.data false) (b.testBit 0)) (b.testBit 1), t 2 % 256, s.ring⟩ := by
    simp only [ps2_recv_isr]
    rw [if_neg nr2]
    simp
  have E4 : ps2_recv_isr (b.testBit 2) (t 3)
      ⟨3, shiftBit (shiftBit (shiftBit s.data false) (b.testBit 0)) (b.testBit 1), t 2 % 256, s.ring⟩
      = ⟨4, shiftBit (shiftBit (shiftBit (shiftBit s.data false) (b.testBit 0)) (b.testBit 1)) (b.testBit 2), t 3 % 256, s.ring⟩ := by
    simp only [ps2_recv_isr]
    rw [if_neg nr3]
    simp
  have E5 : ps2_recv_isr (b.testBit 3) (t 4)
      ⟨4, shiftBit (shiftBit (shiftBit (shiftBit s.data false) (b.testBit 0)) (b.testBit 1)) (b.testBit 2), t 3 % 256, s.ring⟩
      = ⟨5, shiftBit (shiftBit (shiftBit (shiftBit (shiftBit s.data false) (b.testBit 0)) (b.testBit 1)) (b.testBit 2)) (b.testBit 3), t 4 % 256, s.ring⟩ := by
    simp only [ps2_recv_isr]
    rw [if_neg nr4]
    simp
  have E6 : ps2_recv_isr (b.testBit 4) (t 5)
      ⟨5, shiftBit (shiftBit (shiftBit (shiftBit (shiftBit s.data false) (b.testBit 0)) (b.testBit 1)) (b.testBit 2)) (b.testBit 3), t 4 % 256, s.ring⟩
      = ⟨6, shiftBit (shiftBit (shiftBit (shiftBit (shiftBit (shiftBit s.data false) (b.testBit 0)) (b.testBit 1)) (b.testBit 2)) (b.testBit 3)) (b.testBit 4), t 5 % 256, s.ring⟩ := by
    simp only [ps2_recv_isr]
    rw [if_neg nr5]
    simp
  have E7 : ps2_recv_isr (b.testBit 5) (t 6)
      ⟨6, shiftBit (shiftBit (shiftBit (shiftBit (shiftBit (shiftBit s.data false) (b.testBit 0)) (b.testBit 1)) (b.testBit 2)) (b.testBit 3)) (b.testBit 4), t 5 % 256, s.ring⟩
      = ⟨7, shiftBit (shiftBit (shiftBit (shiftBit (shiftBit (shiftBit (shiftBit s.data false) (b.testBit 0)) (b.testBit 1)) (b.testBit 2)) (b.testBit 3)) (b.testBit 4)) (b.testBit 5), t 6 % 256, s.ring⟩ := by
    simp only [ps2_recv_isr]
    rw [if_neg nr6]
    simp
  have E8 : ps2_recv_isr (b.testBit 6) (t 7)
      ⟨7, shiftBit (shiftBit (shiftBit (shiftBit (shiftBit (shiftBit (shiftBit s.data false) (b.testBit 0)) (b.testBit 1)) (b.testBit 2)) (b.testBit 3)) (b.testBit 4)) (b.testBit 5), t 6 % 256, s.ring⟩
      = ⟨8, shiftBit (shiftBit (shiftBit (shiftBit (shiftBit (shiftBit (shiftBit (shiftBit s.data false) (b.testBit 0)) (b.testBit 1)) (b.testBit 2)) (b.testBit 3)) (b.testBit 4)) (b.testBit 5)) (b.testBit 6), t 7 % 256, s.ring⟩ := by
    simp only [ps2_recv_isr]
    rw [if_neg nr7]
    simp
  have E9 : ps2_recv_isr (b.testBit 7) (t 8)
      ⟨8, shiftBit (shiftBit (shiftBit (shiftBit (shiftBit (shiftBit (shiftBit (shiftBit s.data false) (b.testBit 0)) (b.testBit 1)) (b.testBit 2)) (b.testBit 3)) (b.testBit 4)) (b.testBit 5)) (b.testBit 6), t 7 % 256, s.ring⟩
      = ⟨9, shiftBit (shiftBit (shiftBit (shiftBit (shiftBit (shiftBit (shiftBit (shiftBit (shiftBit s.data false) (b.testBit 0)) (b.testBit 1)) (b.testBit 2)) (b.testBit 3)) (b.testBit 4)) (b.testBit 5)) (b.testBit 6)) (b.testBit 7), t 8 % 256, ps2_push s.ring (shiftBit (shiftBit (shiftBit (shiftBit (shiftBit (shiftBit (shiftBit (shiftBit (shiftBit s.data false) (b.testBit 0)) (b.testBit 1)) (b.testBit 2)) (b.testBit 3)) (b.testBit 4)) (b.testBit 5)) (b.testBit 6)) (b.testBit 7))⟩ := by
    simp only [ps2_recv_isr]
    rw [if_neg nr8]
    simp
  have E10 : ps2_recv_isr (odd_parity_bit b) (t 9)
      ⟨9, shiftBit (shiftBit (shiftBit (shiftBit (shiftBit (shiftBit (shiftBit (shiftBit (shiftBit s.data false) (b.testBit 0)) (b.testBit 1)) (b.testBit 2)) (b.testBit 3)) (b.testBit 4)) (b.testBit 5)) (b.testBit 6)) (b.testBit 7), t 8 % 256, ps2_push s.ring (shiftBit (shiftBit (shiftBit (shiftBit (shiftBit (shiftBit (shiftBit (shiftBit (shiftBit s.data false) (b.testBit 0)) (b.testBit 1)) (b.testBit 2)) (b.testBit 3)) (b.testBit 4)) (b.testBit 5)) (b.testBit 6)) (b.testBit 7))⟩
      = ⟨10, shiftBit (shiftBit (shiftBit (shiftBit (shiftBit (shiftBit (shiftBit (shiftBit (shiftBit (shiftBit s.data false) (b.testBit 0)) (b.testBit 1)) (b.testBit 2)) (b.testBit 3)) (b.testBit 4)) (b.testBit 5)) (b.testBit 6)) (b.testBit 7)) (odd_parity_bit b), t 9 % 256, ps2_push s.ring (shiftBit (shiftBit (shiftBit (shiftBit (shiftBit (shiftBit (shiftBit (shiftBit (shiftBit s.data false) (b.testBit 0)) (b.testBit 1)) (b.testBit 2)) (b.testBit 3)) (b.testBit 4)) (b.testBit 5)) (b.testBit 6)) (b.testBit 7))⟩ := by
    simp only [ps2_recv_isr]
    rw [if_neg nr9]
    simp
  have E11 : ps2_recv_isr true (t 10)
      ⟨10, shiftBit (shiftBit (shiftBit (shiftBit (shiftBit (shiftBit (shiftBit (shiftBit (shiftBit (shiftBit s.data false) (b.testBit 0)) (b.testBit 1)) (b.testBit 2)) (b.testBit 3)) (b.testBit 4)) (b.testBit 5)) (b.testBit 6)) (b.testBit 7)) (odd_parity_bit b), t 9 % 256, ps2_push s.ring (shiftBit (shiftBit (shiftBit (shiftBit (shiftBit (shiftBit (shiftBit (shiftBit (shiftBit s.data false) (b.testBit 0)) (b.testBit 1)) (b.testBit 2)) (b.testBit 3)) (b.testBit 4)) (b.testBit 5)) (b.testBit 6)) (b.testBit 7))⟩
      = ⟨0, shiftBit (shiftBit (shiftBit (shiftBit (shiftBit (shiftBit (shiftBit (shiftBit (shiftBit (shiftBit (shiftBit s.data false) (b.testBit 0)) (b.testBit 1)) (b.testBit 2)) (b.testBit 3)) (b.testBit 4)) (b.testBit 5)) (b.testBit 6)) (b.testBit 7)) (odd_parity_bit b)) true, t 10 % 256, ps2_push s.ring (shiftBit (shiftBit (shiftBit (shiftBit (shiftBit (shiftBit (shiftBit (shiftBit (shiftBit s.data false) (b.testBit 0)) (b.testBit 1)) (b.testBit 2)) (b.testBit 3)) (b.testBit 4)) (b.testBit 5)) (b.testBit 6)) (b.testBit 7))⟩ := by
    simp only [ps2_recv_isr]
    rw [if_neg nr10]
    simp
  have htake : (frame_edges b t).take 9 =
      [(false, t 0),
       (b.testBit 0, t 1), (b.testBit 1, t 2), (b.testBit 2, t 3), (b.testBit 3, t 4),
       (b.testBit 4, t 5), (b.testBit 5, t 6), (b.testBit 6, t 7), (b.testBit 7, t 8)] := rfl
  have hfeed9 : ps2_feed s ((frame_edges b t).take 9)
      = ⟨9, shiftBit (shiftBit (shiftBit (shiftBit (shiftBit (shiftBit (shiftBit (shiftBit (shiftBit s.data false) (b.testBit 0)) (b.testBit 1)) (b.testBit 2)) (b.testBit 3)) (b.testBit 4)) (b.testBit 5)) (b.testBit 6)) (b.testBit 7), t 8 % 256, ps2_push s.ring (shiftBit (shiftBit (shiftBit (shiftBit (shiftBit (shiftBit (shiftBit (shiftBit (shiftBit s.data false) (b.testBit 0)) (b.testBit 1)) (b.testBit 2)) (b.testBit 3)) (b.testBit 4)) (b.testBit 5)) (b.testBit 6)) (b.testBit 7))⟩ := by
    rw [htake]
    simp only [ps2_feed, List.foldl_cons, List.foldl_nil]
    rw [E1, E2, E3, E4, E5, E6, E7, E8, E9]
  have hfeed11 : ps2_feed s (frame_edges b t)
      = ⟨0, shiftBit (shiftBit (shiftBit (shiftBit (shiftBit (shiftBit (shiftBit (shiftBit (shiftBit (shiftBit (shiftBit s.data false) (b.testBit 0)) (b.testBit 1)) (b.testBit 2)) (b.testBit 3)) (b.testBit 4)) (b.testBit 5)) (b.testBit 6)) (b.testBit 7)) (odd_parity_bit b)) true, t 10 % 256, ps2_push s.ring (shiftBit (shiftBit (shiftBit (shiftBit (shiftBit (shiftBit (shiftBit (shiftBit (shiftBit s.data false) (b.testBit 0)) (b.testBit 1)) (b.testBit 2)) (b.testBit 3)) (b.testBit 4)) (b.testBit 5)) (b.testBit 6)) (b.testBit 7))⟩ := by
    simp only [ps2_feed, frame_edges, List.foldl_cons, List.foldl_nil]
    rw [E1, E2, E3, E4, E5, E6, E7, E8, E9, E10, E11]
  have hD9 : shiftBit (shiftBit (shiftBit (shiftBit (shiftBit (shiftBit (shiftBit (shiftBit (shiftBit s.data false) (b.testBit 0)) (b.testBit 1)) (b.testBit 2)) (b.testBit 3)) (b.testBit 4)) (b.testBit 5)) (b.testBit 6)) (b.testBit 7) = b := shiftin_eq s.data b hd hb
  have hpush : ps2_push s.ring b =
      { s.ring with buf := s.ring.buf.set s.ring.tail b, tail := (s.ring.tail + 1) &&& 0xF } := by
    simp [ps2_push, hroom]
  refine ⟨?_, ?_, ?_⟩
  · rw [hfeed9]
    show ps2_push s.ring (shiftBit (shiftBit (shiftBit (shiftBit (shiftBit (shiftBit (shiftBit (shiftBit (shiftBit s.data false) (b.testBit 0)) (b.testBit 1)) (b.testBit 2)) (b.testBit 3)) (b.testBit 4)) (b.testBit 5)) (b.testBit 6)) (b.testBit 7)) = _
    rw [hD9, hpush]
  · rw [hfeed11]
    show ps2_push s.ring (shiftBit (shiftBit (shiftBit (shiftBit (shiftBit (shiftBit (shiftBit (shiftBit (shiftBit s.data false) (b.testBit 0)) (b.testBit 1)) (b.testBit 2)) (b.testBit 3)) (b.testBit 4)) (b.testBit 5)) (b.testBit 6)) (b.testBit 7)) = _
    rw [hD9, hpush]
  · rw [hfeed11]

/-- Claim C1 witness: byte 0xA5 received from an empty ring with edges 2 ms
apart. -/
theorem claim_C1_witness :
    ((0xA5 : Nat) < 256 ∧
     (∀ i, i < 10 → 2 * i ≤ 2 * (i + 1) ∧ 2 * (i + 1) ≤ 2 * i + 5)) ∧
    ((ps2_feed ⟨0, 0, 0, ⟨0, 0, List.replicate 16 0⟩⟩
         ((frame_edges 0xA5 (fun n => 2 * n)).take 9)).ring
        = ⟨0, 1, (List.replicate 16 0).set 0 0xA5⟩ ∧
     (ps2_feed ⟨0, 0, 0, ⟨0, 0, List.replicate 16 0⟩⟩
         (frame_edges 0xA5 (fun n => 2 * n))).ring
        = ⟨0, 1, (List.replicate 16 0).set 0 0xA5⟩ ∧
     (ps2_feed ⟨0, 0, 0, ⟨0, 0, List.replicate 16 0⟩⟩
         (frame_edges 0xA5 (fun n => 2 * n))).bitcount = 0) :=
  ⟨⟨by decide, by decide⟩,
    claim_C1 0xA5 (by decide) ⟨0, 0, 0, ⟨0, 0, List.replicate 16 0⟩⟩ (by decide) rfl
      (by decide) (fun n => 2 * n) (by decide)⟩

/-! ## CDTV infrared transmit engine (source lines 312-390)

Timer1 runs at 16 MHz with prescaler 8, so one OCR1A tick is 0.5 us:
OCR1A = 18000 is the 9 ms start pulse, 9000 the 4.5 ms start gap, 800 a
400 us phase, 2400 a 1200 us gap, 4200 the 2.1 ms repeat gap. -/

/-- Transmit state `ir_idle` (source line 313). -/
def ir_idle : Nat := 0

/-- Transmit state `ir_start` (source line 314). -/
def ir_start : Nat := 1

/-- Transmit state `ir_transmit` (source line 315). -/
def ir_transmit : Nat := 2

/-- Transmit state `ir_end_pulse = ir_transmit + 48` (source line 316). -/
def ir_end_pulse : Nat := 50

/-- Transmit state `ir_stop` (source line 317). -/
def ir_stop : Nat := 51

/-- Transmit state `ir_repeat` (source line 318). -/
def ir_repeat : Nat := 52

/-- State of the infrared transmitter: `tx_state`, the ISR-static shift
register `data`, the timer compare register OCR1A, the timer counter TCNT1,
whether the 40 kHz carrier output is enabled (`IR_ENABLE`/`IR_DISABLE`), and
whether the timer prescaler bit CS11 is set (timer running), plus the global
`cdtv_ir_code`. -/
structure TxState where
  txState : Nat
  data : Nat
  ocr1a : Nat
  tcnt : Nat
  irOn : Bool
  timerOn : Bool
  code : Nat
deriving DecidableEq

/-- Model of `ISR(TIMER1_COMPA_vect)` (source lines 323-366): one timer
compare interrupt.  Branches on `tx_state` exactly as the source: load and
start-gap at `ir_start`; during the 48 transmit sub-phases, even states emit
a 400 us carrier pulse and odd states emit the bit gap (complementing `data`
at `ir_transmit + 25` and reducing the shift amount by 12 in the second
half); then the final pulse, then `ir_stop` disables the timer; `ir_repeat`
programs the 2.1 ms repeat gap. -/
def timer1_compa_isr (s : TxState) : TxState :=
  if s.txState = ir_start then
    { s with irOn := false, data := s.code, ocr1a := 9000, txState := s.txState + 1 }
  else if ir_transmit ≤ s.txState ∧ s.txState < ir_end_pulse then
    if s.txState % 2 = 1 then
      let d := if s.txState = ir_transmit + 25 then s.data ^^^ 0xFFFF else s.data
      let ss0 := (s.txState - ir_transmit) / 2
      let ss := if 12 ≤ ss0 then ss0 - 12 else ss0
      { s with irOn := false, data := d,
               ocr1a := if (d >>> ss) &&& 0x1 = 1 then 2400 else 800,
               txState := s.txState + 1 }
    else
      { s with irOn := true, ocr1a := 800, txState := s.txState + 1 }
  else if s.txState = ir_end_pulse then
    { s with irOn := true, ocr1a := 800, txState := s.txState + 1 }
  else if s.txState = ir_stop then
    { s with irOn := false, timerOn := false, txState := ir_idle }
  else if s.txState = ir_repeat then
    { s with irOn := false, ocr1a := 4200, txState := ir_end_pulse }
  else s

/-- Model of `cdtv_send_code` (source lines 368-379): store the code, enter
`ir_start`, program a 9 ms deadline, clear TCNT1, enable the carrier output
and start the timer. -/
def cdtv_send_code (code : Nat) (s : TxState) : TxState :=
  { s with code := code % 65536, txState := ir_start, ocr1a := 18000, tcnt := 0,
           irOn := true, timerOn := true }

/-- Model of `cdtv_send_repeat` (source lines 381-390). -/
def cdtv_send_repeat (s : TxState) : TxState :=
  { s with txState := ir_repeat, ocr1a := 18000, tcnt := 0,
           irOn := true, timerOn := true }

/-- Run the transmitter: while the timer is enabled, the current phase
(carrier on/off, duration in 0.5 us OCR1A ticks) lasts until the next compare
interrupt, which advances the state.  Returns the list of emitted phases and
the final state.  Fuel 100 is ample: a full frame takes 51 phases. -/
def txTrace : Nat → TxState → List (Bool × Nat) × TxState
  | 0, s => ([], s)
  | fuel + 1, s =>
    if s.timerOn then
      ((s.irOn, s.ocr1a) :: (txTrace fuel (timer1_compa_isr s)).1,
       (txTrace fuel (timer1_compa_isr s)).2)
    else ([], s)

/-- Gap duration selected by the odd transmit sub-phases for bit `ss` of the
shift register (source line 343). -/
def gapFor (d ss : Nat) : Nat := if (d >>> ss) &&& 0x1 = 1 then 2400 else 800

/-- Spec-side encoding of one data bit: a 400 us carrier pulse, then a 400 us
silence for a 0 bit or a 1200 us silence for a 1 bit (in 0.5 us ticks). -/
def cdtv_bit_phases (bit : Bool) : List (Bool × Nat) :=
  [(true, 800), (false, if bit then 2400 else 800)]

/-- Spec-side frame for a 12-bit code: 9 ms carrier, 4.5 ms silence, the 12
bits of the code LSB-first, the same 12 bits inverted with the identical
encoding, and a final 400 us carrier pulse. -/
def cdtvSpecFrame (code : Nat) : List (Bool × Nat) :=
  (true, 18000) :: (false, 9000) ::
  ((((List.range 12).map (fun i => cdtv_bit_phases (code.testBit i))).flatten) ++
   (((List.range 12).map (fun i => cdtv_bit_phases (! code.testBit i))).flatten) ++
   [(true, 800)])

/-- Unfolding the transmitter from `cdtv_send_code`: the complete literal
phase list and final state, for any starting state. -/
lemma tx_send_code_run (c : Nat) (s : TxState) :
    txTrace 100 (cdtv_send_code c s) =
      ([(true, 18000),
       (false, 9000),
       (true, 800),
       (false, gapFor (c % 65536) 0),
       (true, 800),
       (false, gapFor (c % 65536) 1),
       (true, 800),
       (false, gapFor (c % 65536) 2),
       (true, 800),
       (false, gapFor (c % 65536) 3),
       (true, 800),
       (false, gapFor (c % 65536) 4),
       (true, 800),
       (false, gapFor (c % 65536) 5),
       (true, 800),
       (false, gapFor (c % 65536) 6),
       (true, 800),
       (false, gapFor (c % 65536) 7),
       (true, 800),
       (false, gapFor (c % 65536) 8),
       (true, 800),
       (false, gapFor (c % 65536) 9),
       (true, 800),
       (false, gapFor (c % 65536) 10),
       (true, 800),
       (false, gapFor (c % 65536) 11),
       (true, 800),
       (false, gapFor (c % 65536 ^^^ 65535) 0),
       (true, 800),
       (false, gapFor (c % 65536 ^^^ 65535) 1),
       (true, 800),
       (false, gapFor (c % 65536 ^^^ 65535) 2),
       (true, 800),
       (false, gapFor (c % 65536 ^^^ 65535) 3),
       (true, 800),
       (false, gapFor (c % 65536 ^^^ 65535) 4),
       (true, 800),
       (false, gapFor (c % 65536 ^^^ 65535) 5),
       (true, 800),
       (false, gapFor (c % 65536 ^^^ 65535) 6),
       (true, 800),
       (false, gapFor (c % 65536 ^^^ 65535) 7),
       (true, 800),
       (false, gapFor (c % 65536 ^^^ 65535) 8),
       (true, 800),
       (false, gapFor (c % 65536 ^^^ 65535) 9),
       (true, 800),
       (false, gapFor (c % 65536 ^^^ 65535) 10),
       (true, 800),
       (false, gapFor (c % 65536 ^^^ 65535) 11),
       (true, 800)],
       ⟨0, c % 65536 ^^^ 65535, 800, 0, false, false, c % 65536⟩) := by
  simp [txTrace, timer1_compa_isr, cdtv_send_code, gapFor, ir_idle, ir_start, ir_transmit,
        ir_end_pulse, ir_stop, ir_repeat]

/-- Gap durations agree with the bit values of the shift register. -/
lemma gapFor_testBit (d i : Nat) : gapFor d i = if d.testBit i then 2400 else 800 := by
  unfold gapFor
  rw [Nat.and_one_is_mod, Nat.shiftRight_eq_div_pow, Nat.testBit_to_div_mod]
  by_cases h : d / 2 ^ i % 2 = 1 <;> simp [h]

/-- The spec-side frame, written with the transmitter gap function. -/
lemma cdtvSpecFrame_eq_lit (c : Nat) (hc : c < 4096) :
    cdtvSpecFrame c =
      [(true, 18000),
       (false, 9000),
       (true, 800),
       (false, gapFor (c) 0),
       (true, 800),
       (false, gapFor (c) 1),
       (true, 800),
       (false, gapFor (c) 2),
       (true, 800),
       (false, gapFor (c) 3),
       (true, 800),
       (false, gapFor (c) 4),
       (true, 800),
       (false, gapFor (c) 5),
       (true, 800),
       (false, gapFor (c) 6),
       (true, 800),
       (false, gapFor (c) 7),
       (true, 800),
       (false, gapFor (c) 8),
       (true, 800),
       (false, gapFor (c) 9),
       (true, 800),
       (false, gapFor (c) 10),
       (true, 800),
       (false, gapFor (c) 11),
       (true, 800),
       (false, gapFor (c ^^^ 65535) 0),
       (true, 800),
       (false, gapFor (c ^^^ 65535) 1),
       (true, 800),
       (false, gapFor (c ^^^ 65535) 2),
       (true, 800),
       (false, gapFor (c ^^^ 65535) 3),
       (true, 800),
       (false, gapFor (c ^^^ 65535) 4),
       (true, 800),
       (false, gapFor (c ^^^ 65535) 5),
       (true, 800),
       (false, gapFor (c ^^^ 65535) 6),
       (true, 800),
       (false, gapFor (c ^^^ 65535) 7),
       (true, 800),
       (false, gapFor (c ^^^ 65535) 8),
       (true, 800),
       (false, gapFor (c ^^^ 65535) 9),
       (true, 800),
       (false, gapFor (c ^^^ 65535) 10),
       (true, 800),
       (false, gapFor (c ^^^ 65535) 11),
       (true, 800)] := by
  have hx : ∀ i, i < 16 → (c ^^^ 65535).testBit i = ! c.testBit i := by
    intro i hi
    rw [Nat.testBit_xor]
    have h65535 : (65535 : Nat).testBit i = true := by
      interval_cases i <;> decide
    rw [h65535]
    cases c.testBit i <;> decide
  simp [cdtvSpecFrame, cdtv_bit_phases, gapFor_testBit, List.range_succ, hx]

/-- The transmitter emits exactly the specified frame for every 12-bit code,
from any prior state, and ends idle with the timer stopped. -/
lemma cdtv_send_code_frame (c : Nat) (hc : c < 4096) (s : TxState) :
    txTrace 100 (cdtv_send_code c s) =
      (cdtvSpecFrame c, ⟨0, c ^^^ 65535, 800, 0, false, false, c⟩) := by
  have hm : c % 65536 = c := Nat.mod_eq_of_lt (by omega)
  rw [tx_send_code_run c s, hm, cdtvSpecFrame_eq_lit c hc]

/-! ## Claims C2, C6, C7 -/

/-- Claim C2: for every 12-bit code, arming the transmitter with
`cdtv_send_code` emits, in order, 9 ms of carrier (18000 ticks), 4.5 ms of
silence (9000 ticks), the 24 data bits — the 12 bits of the code LSB-first
followed by their bitwise complement with the identical encoding, each a
400 us carrier pulse then a 400 us (bit 0) or 1200 us (bit 1) silence — and a
final 400 us carrier pulse, after which the state machine is back in
`ir_idle` with the timer stopped. -/
theorem claim_C2 (code : Nat) (hc : code < 4096) (s : TxState) :
    (txTrace 100 (cdtv_send_code code s)).1 = cdtvSpecFrame code ∧
    (txTrace 100 (cdtv_send_code code s)).2.txState = ir_idle ∧
    (txTrace 100 (cdtv_send_code code s)).2.timerOn = false := by
  rw [cdtv_send_code_frame code hc s]
  exact ⟨rfl, rfl, rfl⟩

/-- Claim C2 witness: the joystick button A code 0x880 from the power-on
state. -/
theorem claim_C2_witness :
    (0x880 : Nat) < 4096 ∧
    ((txTrace 100 (cdtv_send_code 0x880 ⟨0, 0, 0, 0, false, false, 0⟩)).1
        = cdtvSpecFrame 0x880 ∧
     (txTrace 100 (cdtv_send_code 0x880 ⟨0, 0, 0, 0, false, false, 0⟩)).2.txState = ir_idle ∧
     (txTrace 100 (cdtv_send_code 0x880 ⟨0, 0, 0, 0, false, false, 0⟩)).2.timerOn = false) :=
  ⟨by decide, claim_C2 0x880 (by decide) ⟨0, 0, 0, 0, false, false, 0⟩⟩

/-- Claim C6: a repeat request issued while the transmitter is idle emits
exactly 9 ms of carrier (18000 ticks), 2.1 ms of silence (4200 ticks) and one
400 us carrier pulse, then returns to `ir_idle` with the timer prescaler
cleared, so no further compare interrupt fires until a new transmission is
armed. -/
theorem claim_C6 (s : TxState) (hidle : s.txState = ir_idle) (hoff : s.timerOn = false) :
    (txTrace 100 (cdtv_send_repeat s)).1 = [(true, 18000), (false, 4200), (true, 800)] ∧
    (txTrace 100 (cdtv_send_repeat s)).2.txState = ir_idle ∧
    (txTrace 100 (cdtv_send_repeat s)).2.timerOn = false := by
  simp [txTrace, timer1_compa_isr, cdtv_send_repeat, ir_idle, ir_start, ir_transmit,
        ir_end_pulse, ir_stop, ir_repeat]

/-- Claim C6 witness: repeat from the power-on idle state. -/
theorem claim_C6_witness :
    ((⟨0, 0, 0, 0, false, false, 0⟩ : TxState).txState = ir_idle ∧
     (⟨0, 0, 0, 0, false, false, 0⟩ : TxState).timerOn = false) ∧
    ((txTrace 100 (cdtv_send_repeat ⟨0, 0, 0, 0, false, false, 0⟩)).1
        = [(true, 18000), (false, 4200), (true, 800)] ∧
     (txTrace 100 (cdtv_send_repeat ⟨0, 0, 0, 0, false, false, 0⟩)).2.txState = ir_idle ∧
     (txTrace 100 (cdtv_send_repeat ⟨0, 0, 0, 0, false, false, 0⟩)).2.timerOn = false) :=
  ⟨⟨rfl, rfl⟩, claim_C6 ⟨0, 0, 0, 0, false, false, 0⟩ rfl rfl⟩

/-- Primitive statements executed by the arming functions, in source order.
`cdtv_send_code` and `cdtv_send_repeat` (source lines 368-390) are plain
sequences of register writes: no interrupt-disable instruction occurs. -/
inductive TxPrim where
  | setCode (v : Nat)
  | setTxState (v : Nat)
  | setOcr1a (v : Nat)
  | setTcnt (v : Nat)
  | irEnable
  | timerEnable
  | irqDisable
  | irqEnable
deriving DecidableEq

/-- Statement trace of `cdtv_send_code` (source lines 373-378):
`cdtv_ir_code=code; tx_state=ir_start; OCR1A=18000; TCNT1 = 0; IR_ENABLE();
TCCR1B |= (1 << CS11);`. -/
def cdtv_send_code_prims (code : Nat) : List TxPrim :=
  [.setCode code, .setTxState ir_start, .setOcr1a 18000, .setTcnt 0,
   .irEnable, .timerEnable]

/-- Statement trace of `cdtv_send_repeat` (source lines 385-389). -/
def cdtv_send_repeat_prims : List TxPrim :=
  [.setTxState ir_repeat, .setOcr1a 18000, .setTcnt 0, .irEnable, .timerEnable]

/-- Claim C7 counterexample: the claim says arming performs its reset
"atomically with interrupts disabled for the instant of the reset", but
neither `cdtv_send_code` nor `cdtv_send_repeat` executes any
interrupt-disable at all (the source has no `cli`/`noInterrupts` in either
function), exhibited here at the concrete code 0x880. -/
theorem claim_C7_counterexample :
    ¬ (TxPrim.irqDisable ∈ cdtv_send_code_prims 0x880 ∨
       TxPrim.irqDisable ∈ cdtv_send_repeat_prims) := by
  decide

/-- Claim C7 (amended): arming a new code transmission or a repeat while a
previous transmission is mid-flight always resets the phase counter
(`tx_state` to `ir_start`, resp. `ir_repeat`) and the timer counter (TCNT1
to 0) — by a plain sequence of register writes containing no
interrupt-disable — so the in-flight frame is unconditionally replaced: the
emitted pulse train is exactly the new code's frame from its start pulse on
and never interleaves bits of the superseded request. -/
theorem claim_C7_amended (s : TxState) (hmid : s.timerOn = true)
    (code : Nat) (hc : code < 4096) :
    (cdtv_send_code code s).txState = ir_start ∧
    (cdtv_send_code code s).tcnt = 0 ∧
    (cdtv_send_repeat s).txState = ir_repeat ∧
    (cdtv_send_repeat s).tcnt = 0 ∧
    (txTrace 100 (cdtv_send_code code s)).1 = cdtvSpecFrame code ∧
    TxPrim.irqDisable ∉ cdtv_send_code_prims code ∧
    TxPrim.irqDisable ∉ cdtv_send_repeat_prims := by
  refine ⟨rfl, rfl, rfl, rfl, ?_, by simp [cdtv_send_code_prims],
    by simp [cdtv_send_repeat_prims]⟩
  rw [cdtv_send_code_frame code hc s]

/-- Claim C7 witness: superseding a mid-flight transmission (phase 17 of an
earlier frame) with the mouse-up code 0x020. -/
theorem claim_C7_witness :
    ((⟨17, 123, 800, 0, true, true, 123⟩ : TxState).timerOn = true ∧
     (0x020 : Nat) < 4096) ∧
    ((cdtv_send_code 0x020 ⟨17, 123, 800, 0, true, true, 123⟩).txState = ir_start ∧
     (cdtv_send_code 0x020 ⟨17, 123, 800, 0, true, true, 123⟩).tcnt = 0 ∧
     (cdtv_send_repeat ⟨17, 123, 800, 0, true, true, 123⟩).txState = ir_repeat ∧
     (cdtv_send_repeat ⟨17, 123, 800, 0, true, true, 123⟩).tcnt = 0 ∧
     (txTrace 100 (cdtv_send_code 0x020 ⟨17, 123, 800, 0, true, true, 123⟩)).1
        = cdtvSpecFrame 0x020 ∧
     TxPrim.irqDisable ∉ cdtv_send_code_prims 0x020 ∧
     TxPrim.irqDisable ∉ cdtv_send_repeat_prims) :=
  ⟨⟨rfl, by decide⟩,
    claim_C7_amended ⟨17, 123, 800, 0, true, true, 123⟩ rfl 0x020 (by decide)⟩

/-! ## PS/2 command writer `ps2_write_byte` (source lines 102-165) -/

/-- PS/2 clock pin (source line 49). -/
def PS2CLKPIN : Nat := 2

/-- PS/2 data pin (source line 50). -/
def PS2DATAPIN : Nat := 4

/-- Number of pin polls performed by the busy-wait of `await_pin_state`
(source lines 102-105): `uint16_t cnt = 0xFFF; while((digitalRead(pin) !=
state) && cnt--);`.  `read i` is the level sampled by the i-th
`digitalRead`; the short-circuit `&&` means the loop exits as soon as the
pin matches, and the post-decrement makes the test false (with one final
read) once `cnt` reaches 0. -/
def await_pin_reads (read : Nat → Bool) (level : Bool) : Nat → Nat → Nat
  | cnt, i =>
    if read i = level then i + 1
    else
      match cnt with
      | 0 => i + 1
      | c + 1 => await_pin_reads read level c (i + 1)

/-- Total `digitalRead` count of one `await_pin_state` call. -/
def await_pin_state_reads (read : Nat → Bool) (level : Bool) : Nat :=
  await_pin_reads read level 0xFFF 0

/-- The busy-wait performs at most `i + cnt + 1` reads from offset `i`. -/
lemma await_pin_reads_le (read : Nat → Bool) (level : Bool) :
    ∀ (cnt i : Nat), await_pin_reads read level cnt i ≤ i + cnt + 1 := by
  intro cnt
  induction cnt with
  | zero =>
    intro i
    rw [await_pin_reads]
    split
    · omega
    · show i + 1 ≤ i + 0 + 1
      omega
  | succ c ih =>
    intro i
    rw [await_pin_reads]
    split
    · omega
    · show await_pin_reads read level c (i + 1) ≤ i + (c + 1) + 1
      have := ih (i + 1)
      omega

/-- Pin and interrupt actions performed by `ps2_write_byte`, in program
order. -/
inductive WAct where
  | irqOff
  | irqOn
  | clearIrqFlag
  | pullDown (pin : Nat)
  | weakPullup (pin : Nat)
  | delayUs (us : Nat)
  | await (pin : Nat) (level : Bool)
deriving DecidableEq

/-- Action trace of the 8-iteration data-bit loop of `ps2_write_byte`
(source lines 127-140): drive the data line to the current LSB, wait for a
clock low then high, accumulate parity, shift.  Returns the trace and the
final parity accumulator. -/
def ps2_write_bits : Nat → Nat → Nat → List WAct × Nat
  | 0, _, parity => ([], parity)
  | n + 1, data, parity =>
    let act := if data &&& 0x01 = 1 then WAct.weakPullup PS2DATAPIN
               else WAct.pullDown PS2DATAPIN
    let rest := ps2_write_bits n (data >>> 1) (parity ^^^ (data &&& 0x01))
    (act :: .await PS2CLKPIN false :: .await PS2CLKPIN true :: rest.1, rest.2)

/-- Action trace of `ps2_write_byte data` (source lines 107-165): suppress
the receive interrupt, request the bus, send 8 data bits, the odd parity
bit, the stop bit, wait for the acknowledgement, clear the latched
interrupt flag and re-enable the receive interrupt. -/
def ps2_write_byte_trace (data : Nat) : List WAct :=
  [WAct.irqOff,
   .pullDown PS2CLKPIN, .delayUs 200, .pullDown PS2DATAPIN, .delayUs 10,
   .weakPullup PS2CLKPIN, .delayUs 10,
   .await PS2CLKPIN false, .await PS2CLKPIN true] ++
  (ps2_write_bits 8 data 1).1 ++
  [(if (ps2_write_bits 8 data 1).2 ≠ 0 then WAct.weakPullup PS2DATAPIN
    else WAct.pullDown PS2DATAPIN),
   .await PS2CLKPIN true, .await PS2CLKPIN false,
   .weakPullup PS2DATAPIN,
   .await PS2CLKPIN true, .await PS2CLKPIN false,
   .await PS2CLKPIN true, .await PS2DATAPIN true,
   .clearIrqFlag, .irqOn]

/-- Extract the busy-wait calls from an action trace. -/
def wact_await : WAct → Option (Nat × Bool)
  | .await pin level => some (pin, level)
  | _ => none

/-- The busy-wait calls of one `ps2_write_byte` invocation, in order. -/
def ps2_write_byte_awaits (data : Nat) : List (Nat × Bool) :=
  (ps2_write_byte_trace data).filterMap wact_await

/-- Total `digitalRead` count of one `ps2_write_byte` invocation, where
`oracle k` gives the levels sampled during the k-th busy-wait. -/
def ps2_write_byte_total_reads (oracle : Nat → Nat → Bool) (data : Nat) : Nat :=
  (((ps2_write_byte_awaits data).enum).map
    (fun p => await_pin_state_reads (oracle p.1) p.2.2)).sum

/-- The data-bit loop contains exactly two busy-waits per bit. -/
lemma ps2_write_bits_awaits (n : Nat) : ∀ (d p : Nat),
    ((ps2_write_bits n d p).1.filterMap wact_await).length = 2 * n := by
  induction n with
  | zero =>
    intro d p
    rfl
  | succ k ih =>
    intro d p
    rw [ps2_write_bits]
    by_cases h : d % 2 = 1 <;>
      simp [h, wact_await, ih, Nat.and_one_is_mod] <;> omega

/-- Claim C9: every busy-wait inside `ps2_write_byte` performs at most
0xFFF + 1 = 4096 pin reads whatever the pin does, `ps2_write_byte` contains
exactly 24 busy-waits, and hence the whole call performs at most
24 * (0xFFF + 1) reads: it always returns to its caller in a bounded number
of steps even against a non-responsive or disconnected device. -/
theorem claim_C9 (read : Nat → Bool) (level : Bool)
    (oracle : Nat → Nat → Bool) (data : Nat) :
    await_pin_state_reads read level ≤ 0xFFF + 1 ∧
    (ps2_write_byte_awaits data).length = 24 ∧
    ps2_write_byte_total_reads oracle data ≤ 24 * (0xFFF + 1) := by
  have hone : ∀ (rd : Nat → Bool) (lv : Bool), await_pin_state_reads rd lv ≤ 0xFFF + 1 := by
    intro rd lv
    have := await_pin_reads_le rd lv 0xFFF 0
    unfold await_pin_state_reads
    omega
  have hlen : (ps2_write_byte_awaits data).length = 24 := by
    by_cases hp : (ps2_write_bits 8 data 1).2 = 0 <;>
      simp [ps2_write_byte_awaits, ps2_write_byte_trace, wact_await, hp,
        ps2_write_bits_awaits 8 data 1]
  refine ⟨hone read level, hlen, ?_⟩
  have hmem : ∀ x ∈ (((ps2_write_byte_awaits data).enum).map
      (fun p => await_pin_state_reads (oracle p.1) p.2.2)), x ≤ 0xFFF + 1 := by
    intro x hx
    rw [List.mem_map] at hx
    obtain ⟨p, _, rfl⟩ := hx
    exact hone (oracle p.1) p.2.2
  have hsum := List.sum_le_card_nsmul _ (0xFFF + 1) hmem
  rw [List.length_map, List.enum_length, hlen] at hsum
  unfold ps2_write_byte_total_reads
  simpa using hsum
